import Mathlib

/-
  Shallow embedding of the shipping-simulator PoC
  (src/src/simulator_engine.py, src/src/port_management.py,
  src/src/ship_management.py).

  Numeric values (capacities, speeds, fuel rates, cargo volumes) and
  timestamps are modelled over a linearly ordered field `K`; the engine-level
  claims are settled at `K = ℚ` (decidable, executable) and the
  route-planning claims, which involve `np.sqrt`, at `K = ℝ`.
  `datetime` values are modelled as numbers of hours on the `K` line, so
  `timedelta(hours = t)` is `+ t` and `timedelta.days` of a difference `d`
  is `⌊d / 24⌋`.

  Python dicts keyed by id strings (`ShipManager.ships`,
  `PortManager.ports`) are modelled as lists of records carrying their own
  id, looked up with `List.find?`; key uniqueness (a dict invariant,
  enforced by `add_ship` / `add_port`) becomes a `Nodup` hypothesis where a
  proof needs it.  The per-run statistics dicts are modelled as total
  functions from id strings, zero-initialised exactly as `run_simulation`
  initialises them, and summed over the registry id lists just as
  `generate_summary` sums `dict.values()`.

  Fields of the Python classes that no claim and no claim-relevant code
  path ever reads (`Ship.current_location`, `Ship.route_history`,
  `Port.berths`, `Port.waiting_queue`, the never-appended
  `waiting_times` list in the per-port statistics) are omitted.
-/

/-- `Ship` from ship_management.py (claim-relevant fields). -/
structure Ship (K : Type) where
  ship_id : String
  name : String
  capacity : K
  speed : K
  fuel_consumption : K
  ship_type : String
  status : String
  cargo : K
deriving DecidableEq

/-- `Port` from port_management.py (claim-relevant fields). -/
structure Port (K : Type) where
  port_id : String
  name : String
  latitude : K
  longitude : K
deriving DecidableEq

/-- One row of the cargo-demand DataFrame consumed by
`select_best_ship` / `assign_route`. -/
structure Demand (K : Type) where
  date : K
  origin_port : String
  destination_port : String
  cargo_volume : K
  priority : String
deriving DecidableEq

/-- The `details` dict of a `SimulationEvent`.  A key a given event type
does not carry (`travel_distance` on departures, `destination` on
arrivals) is set to a zero value at the construction site. -/
structure EventDetails (K : Type) where
  cargo_volume : K
  destination : String
  travel_distance : K
deriving DecidableEq

/-- `SimulationEvent` from simulator_engine.py. -/
structure SimulationEvent (K : Type) where
  timestamp : K
  event_type : String
  ship_id : String
  port_id : String
  details : EventDetails K
deriving DecidableEq

/-- One entry of `simulation_log` (the `fuel_consumed` key, absent on
departure entries, is set to zero there). -/
structure LogEntry (K : Type) where
  timestamp : K
  event : String
  ship_id : String
  port_id : String
  cargo_volume : K
  fuel_consumed : K
deriving DecidableEq

/-- Per-port statistics record of `run_simulation`. -/
structure PortStat (K : Type) where
  ships_handled : Nat
  cargo_handled : K
deriving DecidableEq

/-- Per-ship statistics record of `run_simulation`. -/
structure ShipStat (K : Type) where
  total_distance : K
  fuel_consumed : K
  cargo_delivered : K
deriving DecidableEq

/-- The summary dict returned by `generate_summary`. -/
structure Summary (K : Type) where
  total_cargo_handled : K
  total_fuel_consumed : K
  total_distance_traveled : K
  average_fuel_efficiency : K
  simulation_period : Int
deriving DecidableEq

/-- `ShipManager.get_ship`: dict lookup by ship id. -/
def get_ship {K : Type} (ships : List (Ship K)) (ship_id : String) :
    Option (Ship K) :=
  ships.find? (fun s => s.ship_id == ship_id)

/-- `PortManager.get_port`: dict lookup by port id. -/
def get_port {K : Type} (ports : List (Port K)) (port_id : String) :
    Option (Port K) :=
  ports.find? (fun p => p.port_id == port_id)

/-- In-place mutation of the (unique) ship object with the given id,
as Python's `ship.status = ...` mutates the entry of the manager dict. -/
def update_ship {K : Type} (ships : List (Ship K)) (ship_id : String)
    (f : Ship K → Ship K) : List (Ship K) :=
  ships.map (fun s => if s.ship_id = ship_id then f s else s)

/-- Python's `min(l, key=key)` on a nonempty list: a left fold that
replaces the current best only on a strictly smaller key, so the FIRST
element attaining the minimum key wins.  `none` on the empty list (the
caller `select_best_ship` returns `None` before calling `min` there). -/
def python_min {K : Type} [LinearOrder K] (key : Ship K → K) :
    List (Ship K) → Option (Ship K)
  | [] => none
  | x :: xs => some (xs.foldl (fun b s => if key s < key b then s else b) x)

/-- `ShippingSimulator.select_best_ship`: filter to sufficient capacity,
then Python `min` by fuel consumption. -/
def select_best_ship {K : Type} [LinearOrder K] (ships : List (Ship K))
    (demand : Demand K) : Option (Ship K) :=
  python_min (fun s => s.fuel_consumption)
    (ships.filter (fun s => demand.cargo_volume ≤ s.capacity))

/-- The mutable state of a `ShippingSimulator` instance: the two managers,
the pending event list and the clock fields set by `setup_simulation`. -/
structure SimState (K : Type) where
  ships : List (Ship K)
  ports : List (Port K)
  events : List (SimulationEvent K)
  start_time : K
  end_time : K
  current_time : K
deriving DecidableEq

/-- `PortManager.calculate_distance`: Euclidean distance in degrees of
latitude/longitude scaled by 111, and 0 when either port id is not
registered. -/
noncomputable def calculate_distance (ports : List (Port ℝ))
    (port1_id port2_id : String) : ℝ :=
  match get_port ports port1_id, get_port ports port2_id with
  | some port1, some port2 =>
      Real.sqrt ((port1.latitude - port2.latitude) ^ 2 +
        (port1.longitude - port2.longitude) ^ 2) * 111
  | _, _ => 0

/-- `ShippingSimulator.assign_route`: look up both endpoints; on a missing
endpoint silently return with the state untouched; otherwise append the
departure/arrival event pair and mark the ship `Scheduled`. -/
noncomputable def assign_route (st : SimState ℝ) (ship : Ship ℝ)
    (demand : Demand ℝ) : SimState ℝ :=
  if (get_port st.ports demand.origin_port).isSome ∧
      (get_port st.ports demand.destination_port).isSome then
    let distance := calculate_distance st.ports demand.origin_port
      demand.destination_port
    let travel_time := distance / ship.speed
    let departure_time := demand.date
    let arrival_time := departure_time + travel_time
    let departure_event : SimulationEvent ℝ :=
      ⟨departure_time, "DEPARTURE", ship.ship_id, demand.origin_port,
        ⟨demand.cargo_volume, demand.destination_port, 0⟩⟩
    let arrival_event : SimulationEvent ℝ :=
      ⟨arrival_time, "ARRIVAL", ship.ship_id, demand.destination_port,
        ⟨demand.cargo_volume, "", distance⟩⟩
    { st with
        events := st.events ++ [departure_event, arrival_event],
        ships := update_ship st.ships ship.ship_id
          (fun s => { s with status := "Scheduled" }) }
  else st

/-- The mutable data of one `run_simulation` call: the two registries, the
simulated-time cursor, the two statistics dicts (total functions over id
strings) and the simulation log. -/
structure RunState (K : Type) where
  ships : List (Ship K)
  ports : List (Port K)
  current_time : K
  port_stats : String → PortStat K
  ship_stats : String → ShipStat K
  log : List (LogEntry K)

/-- `ShippingSimulator.handle_departure`: if the ship id resolves, mark the
ship `In Transit`, load the cargo and log; otherwise do nothing.  The
event's port id is never consulted. -/
def handle_departure {K : Type} [LinearOrderedField K] (rs : RunState K)
    (e : SimulationEvent K) : RunState K :=
  match get_ship rs.ships e.ship_id with
  | some _ =>
    { rs with
        ships := update_ship rs.ships e.ship_id
          (fun s => { s with status := "In Transit",
                             cargo := e.details.cargo_volume }),
        log := rs.log ++
          [⟨e.timestamp, "DEPARTURE", e.ship_id, e.port_id,
            e.details.cargo_volume, 0⟩] }
  | none => rs

/-- `ShippingSimulator.handle_arrival`: if both the ship id and the port id
resolve, update both statistics dicts, charge the fuel, free the ship
(`Available`, cargo 0) and log; otherwise do nothing. -/
def handle_arrival {K : Type} [LinearOrderedField K] (rs : RunState K)
    (e : SimulationEvent K) : RunState K :=
  match get_ship rs.ships e.ship_id, get_port rs.ports e.port_id with
  | some ship, some _ =>
    let fuel_consumed := (e.details.travel_distance / ship.speed) *
      ship.fuel_consumption
    { rs with
        port_stats := fun k =>
          if k = e.port_id then
            ⟨(rs.port_stats k).ships_handled + 1,
             (rs.port_stats k).cargo_handled + e.details.cargo_volume⟩
          else rs.port_stats k,
        ship_stats := fun k =>
          if k = e.ship_id then
            ⟨(rs.ship_stats k).total_distance + e.details.travel_distance,
             (rs.ship_stats k).fuel_consumed + fuel_consumed,
             (rs.ship_stats k).cargo_delivered + e.details.cargo_volume⟩
          else rs.ship_stats k,
        ships := update_ship rs.ships e.ship_id
          (fun s => { s with status := "Available", cargo := 0 }),
        log := rs.log ++
          [⟨e.timestamp, "ARRIVAL", e.ship_id, e.port_id,
            e.details.cargo_volume, fuel_consumed⟩] }
  | _, _ => rs

/-- The body of the replay loop of `run_simulation`: advance the
simulated-time cursor to the event's timestamp, then dispatch on the event
type (an unknown type is ignored). -/
def process_event {K : Type} [LinearOrderedField K] (rs : RunState K)
    (e : SimulationEvent K) : RunState K :=
  let rs' := { rs with current_time := e.timestamp }
  if e.event_type = "DEPARTURE" then handle_departure rs' e
  else if e.event_type = "ARRIVAL" then handle_arrival rs' e
  else rs'

/-- The replay loop of `run_simulation`: visit events in list order and
break (returning the state reached so far) at the first event whose
timestamp strictly exceeds the configured end time. -/
def run_loop {K : Type} [LinearOrderedField K] (end_time : K) :
    RunState K → List (SimulationEvent K) → RunState K
  | rs, [] => rs
  | rs, e :: rest =>
    if end_time < e.timestamp then rs
    else run_loop end_time (process_event rs e) rest

/-- The sublist of events the replay loop visits (dispatches a handler
for), in the order it visits them. -/
def visited_events {K : Type} [LinearOrder K] (end_time : K) :
    List (SimulationEvent K) → List (SimulationEvent K)
  | [] => []
  | e :: rest =>
    if end_time < e.timestamp then []
    else e :: visited_events end_time rest

/-- The successive values assigned to the simulated-time cursor
`current_time` across the visited events. -/
def cursor_trace {K : Type} [LinearOrder K] (end_time : K)
    (events : List (SimulationEvent K)) : List K :=
  (visited_events end_time events).map (fun e => e.timestamp)

/-- Sum of `cargo_handled` over the per-port statistics dict, whose keys
are the registered port ids. -/
def total_port_cargo {K : Type} [LinearOrderedField K] (ports : List (Port K))
    (port_stats : String → PortStat K) : K :=
  (ports.map (fun p => (port_stats p.port_id).cargo_handled)).sum

/-- Sum of `cargo_delivered` over the per-ship statistics dict, whose keys
are the registered ship ids. -/
def total_ship_delivered {K : Type} [LinearOrderedField K]
    (ships : List (Ship K)) (ship_stats : String → ShipStat K) : K :=
  (ships.map (fun s => (ship_stats s.ship_id).cargo_delivered)).sum

/-- Sum of `fuel_consumed` over the per-ship statistics dict. -/
def total_ship_fuel {K : Type} [LinearOrderedField K] (ships : List (Ship K))
    (ship_stats : String → ShipStat K) : K :=
  (ships.map (fun s => (ship_stats s.ship_id).fuel_consumed)).sum

/-- Sum of `total_distance` over the per-ship statistics dict. -/
def total_ship_distance {K : Type} [LinearOrderedField K]
    (ships : List (Ship K)) (ship_stats : String → ShipStat K) : K :=
  (ships.map (fun s => (ship_stats s.ship_id).total_distance)).sum

/-- `ShippingSimulator.generate_summary`: totals over the statistics
dicts, a guarded average (0 when no fuel was consumed) and the run period
in whole days. -/
def generate_summary {K : Type} [LinearOrderedField K] [FloorRing K]
    (ports : List (Port K)) (ships : List (Ship K)) (start_time end_time : K)
    (port_stats : String → PortStat K) (ship_stats : String → ShipStat K) :
    Summary K :=
  let total_cargo := total_port_cargo ports port_stats
  let total_fuel := total_ship_fuel ships ship_stats
  let total_distance := total_ship_distance ships ship_stats
  { total_cargo_handled := total_cargo
    total_fuel_consumed := total_fuel
    total_distance_traveled := total_distance
    average_fuel_efficiency := if 0 < total_fuel then total_cargo / total_fuel else 0
    simulation_period := ⌊(end_time - start_time) / 24⌋ }

/-- `ShippingSimulator.run_simulation`: sort the pending events ascending
by timestamp exactly once (Python's stable `list.sort`, modelled by the
stable `insertionSort`), replay them from zero-initialised statistics
through the break-at-end-time loop, and package the final state with the
summary. -/
def run_simulation {K : Type} [LinearOrderedField K] [FloorRing K]
    (st : SimState K) : RunState K × Summary K :=
  let sorted_events := st.events.insertionSort
    (fun a b => a.timestamp ≤ b.timestamp)
  let rs : RunState K :=
    ⟨st.ships, st.ports, st.current_time,
     fun _ => ⟨0, 0⟩, fun _ => ⟨0, 0, 0⟩, []⟩
  let final := run_loop st.end_time rs sorted_events
  (final,
   generate_summary st.ports st.ships st.start_time st.end_time
     final.port_stats final.ship_stats)

/-
  Concrete fixtures used by witnesses and counterexamples.
-/

/-- Scenario-B ship of capacity 500 and fuel rate 100. -/
def ship500 : Ship ℚ := ⟨"SHIP500", "small", 500, 10, 100, "Container", "Available", 0⟩

/-- Scenario-B ship of capacity 1000 and fuel rate 80. -/
def ship1000 : Ship ℚ := ⟨"SHIP1000", "large", 1000, 10, 80, "Container", "Available", 0⟩

/-- A demand of volume 600 between two ports. -/
def demand600 : Demand ℚ := ⟨0, "P1", "P2", 600, "Low"⟩

/-- A ship whose id sorts second but which comes first in the list. -/
def shipTieFirst : Ship ℚ := ⟨"S2", "tie-first", 1000, 10, 80, "Container", "Available", 0⟩

/-- A ship whose id sorts first but which comes second in the list. -/
def shipTieSecond : Ship ℚ := ⟨"S1", "tie-second", 1000, 10, 80, "Container", "Available", 0⟩

/-
  Helper lemmas.
-/

/-- Full specification of the Python `min` fold: the fold of `step` over
`x :: xs` lands in the list, attains the minimum key, and is the FIRST
element to attain it (everything before its position has a strictly
larger key). -/
lemma foldl_min_spec {K : Type} [LinearOrder K] (key : Ship K → K)
    (xs : List (Ship K)) (x : Ship K) :
    ∃ l1 l2,
      x :: xs = l1 ++ (xs.foldl (fun b s => if key s < key b then s else b) x) :: l2 ∧
      (∀ y ∈ x :: xs,
        key (xs.foldl (fun b s => if key s < key b then s else b) x) ≤ key y) ∧
      (∀ y ∈ l1,
        key (xs.foldl (fun b s => if key s < key b then s else b) x) < key y) := by
  induction xs generalizing x with
  | nil =>
    refine ⟨[], [], rfl, ?_, ?_⟩
    · intro y hy
      simp only [List.foldl_nil]
      rcases List.mem_singleton.mp hy with rfl
      exact le_refl _
    · intro y hy
      simp at hy
  | cons s rest ih =>
    simp only [List.foldl_cons]
    by_cases hlt : key s < key x
    · -- the accumulator is replaced by s
      rw [if_pos hlt]
      obtain ⟨l1, l2, hdec, hmin, hstrict⟩ := ih s
      set r := rest.foldl (fun b s => if key s < key b then s else b) s with hr
      refine ⟨x :: l1, l2, ?_, ?_, ?_⟩
      · rw [List.cons_append, ← hdec]
      · intro y hy
        rcases List.mem_cons.mp hy with rfl | hy'
        · exact le_of_lt (lt_of_le_of_lt (hmin s (List.mem_cons_self _ _)) hlt)
        · exact hmin y hy'
      · intro y hy
        rcases List.mem_cons.mp hy with rfl | hy'
        · exact lt_of_le_of_lt (hmin s (List.mem_cons_self _ _)) hlt
        · exact hstrict y hy'
    · -- the accumulator x is kept
      rw [if_neg hlt]
      obtain ⟨l1, l2, hdec, hmin, hstrict⟩ := ih x
      set r := rest.foldl (fun b s => if key s < key b then s else b) x with hr
      have hxs : key r ≤ key s :=
        le_trans (hmin x (List.mem_cons_self _ _)) (not_lt.mp hlt)
      cases l1 with
      | nil =>
        simp only [List.nil_append] at hdec
        refine ⟨[], s :: rest, ?_, ?_, ?_⟩
        · rw [List.nil_append]
          have hrx : r = x := by
            have := hdec
            injection this with h1 _
            exact h1.symm
          rw [hrx]
        · intro y hy
          rcases List.mem_cons.mp hy with rfl | hy'
          · exact hmin y (List.mem_cons_self _ _)
          · rcases List.mem_cons.mp hy' with rfl | hy''
            · exact hxs
            · exact hmin y (List.mem_cons_of_mem _ hy'')
        · intro y hy
          simp at hy
      | cons a t =>
        have h := hdec
        rw [List.cons_append, List.cons.injEq] at h
        obtain ⟨hxa, hrest⟩ := h
        have hrltx : key r < key x := by
          rw [hxa]
          exact hstrict a (List.mem_cons_self _ _)
        refine ⟨x :: s :: t, l2, ?_, ?_, ?_⟩
        · rw [List.cons_append, List.cons_append, ← hrest]
        · intro y hy
          rcases List.mem_cons.mp hy with rfl | hy'
          · exact hmin y (List.mem_cons_self _ _)
          · rcases List.mem_cons.mp hy' with rfl | hy''
            · exact hxs
            · exact hmin y (List.mem_cons_of_mem _ hy'')
        · intro y hy
          rcases List.mem_cons.mp hy with rfl | hy'
          · exact hrltx
          · rcases List.mem_cons.mp hy' with rfl | hy''
            · exact lt_of_lt_of_le hrltx (not_lt.mp hlt)
            · exact hstrict y (List.mem_cons_of_mem _ hy'')

/-
  C1 — ship selection.
-/

/-- C1 (amended): `select_best_ship` filters to the ships whose capacity
is at least the demand's cargo volume and returns, among those, the ship
with minimum fuel-consumption rate, ties broken by EARLIEST POSITION in
the supplied list (Python's `min` keeps the first minimum; the ship id
plays no role); it returns none when no ship has sufficient capacity; and
in Scenario B (capacities 500 and 1000, fuel rates 100 and 80, demand
volume 600) it selects the 1000-capacity ship despite its worse position
being irrelevant and the 500-capacity ship's better fuel rate. -/
theorem select_best_ship_capacity_filter_then_first_min
    (ships : List (Ship ℚ)) (demand : Demand ℚ) :
    (select_best_ship ships demand = none ↔
      ∀ s ∈ ships, s.capacity < demand.cargo_volume) ∧
    (∀ r, select_best_ship ships demand = some r →
      r ∈ ships ∧ demand.cargo_volume ≤ r.capacity ∧
      (∀ s ∈ ships, demand.cargo_volume ≤ s.capacity →
        r.fuel_consumption ≤ s.fuel_consumption) ∧
      ∃ l1 l2,
        ships.filter (fun s => demand.cargo_volume ≤ s.capacity) =
          l1 ++ r :: l2 ∧
        ∀ y ∈ l1, r.fuel_consumption < y.fuel_consumption) ∧
    select_best_ship [ship500, ship1000] demand600 = some ship1000 := by
  have hsel : select_best_ship ships demand =
      python_min (fun s => s.fuel_consumption)
        (ships.filter (fun s => demand.cargo_volume ≤ s.capacity)) := rfl
  refine ⟨?_, ?_, by decide⟩
  · rw [hsel]
    cases hf : ships.filter (fun s => demand.cargo_volume ≤ s.capacity) with
    | nil =>
      simp only [python_min, true_iff]
      rw [List.filter_eq_nil_iff] at hf
      intro s hs
      have := hf s hs
      simp only [decide_eq_true_eq] at this
      exact not_le.mp this
    | cons x xs =>
      simp only [python_min, reduceCtorEq, false_iff, not_forall]
      have hx : x ∈ ships.filter (fun s => demand.cargo_volume ≤ s.capacity) := by
        rw [hf]; exact List.mem_cons_self _ _
      rw [List.mem_filter] at hx
      refine ⟨x, hx.1, ?_⟩
      have := hx.2
      simp only [decide_eq_true_eq] at this
      exact not_lt.mpr this
  · intro r hr
    rw [hsel] at hr
    cases hf : ships.filter (fun s => demand.cargo_volume ≤ s.capacity) with
    | nil => rw [hf] at hr; simp [python_min] at hr
    | cons x xs =>
      rw [hf] at hr
      simp only [python_min, Option.some.injEq] at hr
      obtain ⟨l1, l2, hdec, hmin, hstrict⟩ :=
        foldl_min_spec (fun s => s.fuel_consumption) xs x
      rw [hr] at hdec hmin hstrict
      have hrmem : r ∈ ships.filter (fun s => demand.cargo_volume ≤ s.capacity) := by
        rw [hf, hdec]
        exact List.mem_append.mpr (Or.inr (List.mem_cons_self _ _))
      rw [List.mem_filter] at hrmem
      have hrcap : demand.cargo_volume ≤ r.capacity := by
        have := hrmem.2
        simpa using this
      refine ⟨hrmem.1, hrcap, ?_, l1, l2, ?_, hstrict⟩
      · intro s hs hcap
        apply hmin
        rw [← hf]
        exact List.mem_filter.mpr ⟨hs, by simpa using hcap⟩
      · exact hdec

/-- C1, counterexample to the claim as stated: with two suitable ships of
EQUAL fuel rate, listed with ship id "S2" first and "S1" second, the
selector returns the ship with id "S2" (first in the list), not the one
with the lowest ship id ("S1"): the tie-break is list position, not ship
id. -/
theorem select_best_ship_tie_not_broken_by_id :
    select_best_ship [shipTieFirst, shipTieSecond] demand600 = some shipTieFirst ∧
    shipTieFirst.ship_id = "S2" ∧ shipTieSecond.ship_id = "S1" ∧
    ("S1" < "S2") ∧
    shipTieFirst.fuel_consumption = shipTieSecond.fuel_consumption ∧
    demand600.cargo_volume ≤ shipTieSecond.capacity ∧
    shipTieFirst ≠ shipTieSecond := by
  refine ⟨by decide, rfl, rfl,
    String.lt_iff_toList_lt.mpr (by decide), by decide, by decide, by decide⟩

/-- C1 witness: the theorem applied to Scenario B's concrete inputs. -/
theorem select_best_ship_witness :
    select_best_ship [ship500, ship1000] demand600 = some ship1000 :=
  (select_best_ship_capacity_filter_then_first_min [ship500, ship1000]
    demand600).2.2

/-
  C2 — route planning with an unknown endpoint.
-/

/-- A registered port at the origin of the coordinate grid. -/
noncomputable def portRA : Port ℝ := ⟨"RA", "origin", 0, 0⟩

/-- A registered port one degree of latitude away from portRA. -/
noncomputable def portRB : Port ℝ := ⟨"RB", "north", 1, 0⟩

/-- A ship of speed 10 for the route-planning scenarios. -/
noncomputable def shipR : Ship ℝ := ⟨"RS1", "runner", 1000, 10, 5, "Container", "Available", 0⟩

/-- A demand whose origin port id is not registered. -/
noncomputable def demandUnknown : Demand ℝ := ⟨0, "NOWHERE", "RB", 40, "Low"⟩

/-- A demand between the two registered ports. -/
noncomputable def demandRAB : Demand ℝ := ⟨7, "RA", "RB", 40, "Low"⟩

/-- A simulator state holding the two registered ports and one ship. -/
noncomputable def stR : SimState ℝ := ⟨[shipR], [portRA, portRB], [], 0, 100, 0⟩

/-- C2 (amended): when the origin or destination port id of the demand is
not registered, `assign_route` silently returns with the simulator state
completely unchanged — no events are appended and the ship's status is
untouched — and no error of any kind is surfaced to the caller (the
function is total; an `UnknownPort` failure channel does not exist in the
code). -/
theorem assign_route_unknown_port_silently_unchanged (st : SimState ℝ)
    (ship : Ship ℝ) (demand : Demand ℝ)
    (h : get_port st.ports demand.origin_port = none ∨
      get_port st.ports demand.destination_port = none) :
    assign_route st ship demand = st := by
  rcases h with h | h <;> simp [assign_route, h]

/-- C2, counterexample to the claim as stated: planning a demand whose
origin port id "NOWHERE" is unregistered does not fail with an
`UnknownPort` error surfaced to the caller — `assign_route` returns
normally with the state unchanged (a silent no-op), which is exactly the
behaviour the claim excludes ("rather than succeeding or silently doing
nothing"). -/
theorem assign_route_unknown_port_no_error :
    get_port stR.ports demandUnknown.origin_port = none ∧
    assign_route stR shipR demandUnknown = stR ∧
    (assign_route stR shipR demandUnknown).events = [] := by
  have h : get_port stR.ports demandUnknown.origin_port = none := rfl
  have h2 : assign_route stR shipR demandUnknown = stR := by
    simp [assign_route, h]
  exact ⟨h, h2, by rw [h2]; rfl⟩

/-- C2 witness: the amended theorem applied at a concrete state with an
unregistered origin port. -/
theorem assign_route_unknown_port_witness :
    (get_port stR.ports demandUnknown.origin_port = none ∨
      get_port stR.ports demandUnknown.destination_port = none) ∧
    assign_route stR shipR demandUnknown = stR :=
  ⟨Or.inl rfl,
   assign_route_unknown_port_silently_unchanged stR shipR demandUnknown
     (Or.inl rfl)⟩

/-
  C5 — route timing, C10 — total distance helper.
-/

/-- C5: for a successfully planned (ship, demand) pair with both ports
registered, the distance is the Euclidean distance of the two ports'
latitude/longitude coordinates (in degrees) scaled by 111, and the two
appended events carry: departure timestamp = the demand's timestamp, and
arrival timestamp = departure timestamp + distance / ship speed (the
travel time in hours). -/
theorem assign_route_euclidean_timing (st : SimState ℝ) (ship : Ship ℝ)
    (demand : Demand ℝ) (q1 q2 : Port ℝ)
    (h1 : get_port st.ports demand.origin_port = some q1)
    (h2 : get_port st.ports demand.destination_port = some q2) :
    calculate_distance st.ports demand.origin_port demand.destination_port =
      Real.sqrt ((q1.latitude - q2.latitude) ^ 2 +
        (q1.longitude - q2.longitude) ^ 2) * 111 ∧
    (assign_route st ship demand).events =
      st.events ++
        [⟨demand.date, "DEPARTURE", ship.ship_id, demand.origin_port,
           ⟨demand.cargo_volume, demand.destination_port, 0⟩⟩,
         ⟨demand.date +
            calculate_distance st.ports demand.origin_port
              demand.destination_port / ship.speed,
           "ARRIVAL", ship.ship_id, demand.destination_port,
           ⟨demand.cargo_volume, "",
            calculate_distance st.ports demand.origin_port
              demand.destination_port⟩⟩] := by
  constructor
  · simp [calculate_distance, h1, h2]
  · simp [assign_route, h1, h2]

/-- C5 witness (Scenario A): two registered ports one degree apart in
latitude only and ship speed 10 give distance 111 and travel time 11.1
hours: the arrival timestamp is the departure timestamp (the demand's
date, 7) plus 11.1. -/
theorem assign_route_euclidean_timing_witness :
    get_port stR.ports demandRAB.origin_port = some portRA ∧
    get_port stR.ports demandRAB.destination_port = some portRB ∧
    (assign_route stR shipR demandRAB).events =
      [⟨(7 : ℝ), "DEPARTURE", "RS1", "RA", ⟨40, "RB", 0⟩⟩,
       ⟨(7 : ℝ) + 11.1, "ARRIVAL", "RS1", "RB", ⟨40, "", 111⟩⟩] := by
  have h1 : get_port stR.ports demandRAB.origin_port = some portRA := rfl
  have h2 : get_port stR.ports demandRAB.destination_port = some portRB := rfl
  have hmain := assign_route_euclidean_timing stR shipR demandRAB portRA portRB h1 h2
  have hsq : Real.sqrt ((portRA.latitude - portRB.latitude) ^ 2 +
      (portRA.longitude - portRB.longitude) ^ 2) = 1 := by
    have hval : (portRA.latitude - portRB.latitude) ^ 2 +
        (portRA.longitude - portRB.longitude) ^ 2 = 1 := by
      simp [portRA, portRB]
    rw [hval, Real.sqrt_one]
  have hd : calculate_distance stR.ports demandRAB.origin_port
      demandRAB.destination_port = 111 := by
    rw [hmain.1, hsq, one_mul]
  refine ⟨h1, h2, ?_⟩
  rw [hmain.2, hd]
  have hev : stR.events = [] := rfl
  rw [hev, List.nil_append]
  have hdate : demandRAB.date = (7 : ℝ) := rfl
  have hspeed : shipR.speed = (10 : ℝ) := rfl
  rw [hdate, hspeed]
  norm_num [shipR, demandRAB]

/-- C10: `PortManager.calculate_distance` is total and never fails: when
either port id is not registered it returns 0 (not an error and not a
sentinel such as none), and two registered ports with identical
coordinates also give 0, so at this interface an unknown port is
indistinguishable from two co-located ports. -/
theorem calculate_distance_total_unknown_zero :
    (∀ (ports : List (Port ℝ)) (p1 p2 : String),
      get_port ports p1 = none ∨ get_port ports p2 = none →
      calculate_distance ports p1 p2 = 0) ∧
    (∀ (ports : List (Port ℝ)) (p1 p2 : String) (q1 q2 : Port ℝ),
      get_port ports p1 = some q1 → get_port ports p2 = some q2 →
      q1.latitude = q2.latitude → q1.longitude = q2.longitude →
      calculate_distance ports p1 p2 = 0) := by
  constructor
  · intro ports p1 p2 h
    rcases hh1 : get_port ports p1 with _ | q1
    · rcases hh2 : get_port ports p2 with _ | q2
      · simp [calculate_distance, hh1, hh2]
      · simp [calculate_distance, hh1, hh2]
    · rcases hh2 : get_port ports p2 with _ | q2
      · simp [calculate_distance, hh1, hh2]
      · exfalso
        rcases h with h | h
        · rw [h] at hh1; exact Option.noConfusion hh1
        · rw [h] at hh2; exact Option.noConfusion hh2
  · intro ports p1 p2 q1 q2 hq1 hq2 hlat hlon
    simp [calculate_distance, hq1, hq2, hlat, hlon]

/-- C10 witness: the theorem applied to an empty port registry, where
every lookup misses and the distance evaluates to 0. -/
theorem calculate_distance_unknown_witness :
    get_port ([] : List (Port ℝ)) "A" = none ∧
    calculate_distance [] "A" "B" = 0 :=
  ⟨rfl, calculate_distance_total_unknown_zero.1 [] "A" "B" (Or.inl rfl)⟩

/-
  C3 — arrival for a ship not In Transit, C6 — replay skip rules.
-/

/-- A registered ship whose status is Available (not In Transit). -/
def shipQ : Ship ℚ := ⟨"S1", "q-ship", 1000, 10, 5, "Container", "Available", 0⟩

/-- A registered port. -/
def portQA : Port ℚ := ⟨"PA", "qa", 0, 0⟩

/-- A second registered port. -/
def portQB : Port ℚ := ⟨"PB", "qb", 1, 0⟩

/-- A replay state with one Available ship and two ports, all statistics
zero. -/
def rsQ : RunState ℚ :=
  ⟨[shipQ], [portQA, portQB], 0, fun _ => ⟨0, 0⟩, fun _ => ⟨0, 0, 0⟩, []⟩

/-- An arrival event for ship "S1" at port "PB". -/
def evArrQ : SimulationEvent ℚ := ⟨10, "ARRIVAL", "S1", "PB", ⟨40, "", 111⟩⟩

/-- A departure event whose port id "NOWHERE" is not registered but whose
ship id "S1" is. -/
def evDepNoPortQ : SimulationEvent ℚ :=
  ⟨0, "DEPARTURE", "S1", "NOWHERE", ⟨40, "PB", 0⟩⟩

/-- A departure event whose ship id "GHOST" is not registered. -/
def evGhostQ : SimulationEvent ℚ := ⟨0, "DEPARTURE", "GHOST", "PA", ⟨40, "PB", 0⟩⟩

/-- C3 (amended): the event handlers are total (they never crash), but
they do not check the predecessor state: `handle_arrival` for a ship whose
status is NOT "In Transit" is processed exactly like any other arrival —
both statistics dicts are updated by the event's cargo volume, the log
entry is appended, and the ship is unconditionally set to "Available" with
cargo 0 — rather than being treated as a no-op/skip.  The strict
Available → Scheduled → In Transit → Available cycle is not enforced by
the handlers. -/
theorem handle_arrival_ignores_predecessor_status (rs : RunState ℚ)
    (e : SimulationEvent ℚ) (ship : Ship ℚ) (p : Port ℚ)
    (hs : get_ship rs.ships e.ship_id = some ship)
    (hp : get_port rs.ports e.port_id = some p)
    (_hstatus : ship.status ≠ "In Transit") :
    ((handle_arrival rs e).ship_stats e.ship_id).cargo_delivered =
      (rs.ship_stats e.ship_id).cargo_delivered + e.details.cargo_volume ∧
    ((handle_arrival rs e).port_stats e.port_id).cargo_handled =
      (rs.port_stats e.port_id).cargo_handled + e.details.cargo_volume ∧
    (handle_arrival rs e).log =
      rs.log ++ [⟨e.timestamp, "ARRIVAL", e.ship_id, e.port_id,
        e.details.cargo_volume,
        (e.details.travel_distance / ship.speed) * ship.fuel_consumption⟩] ∧
    (∀ s ∈ (handle_arrival rs e).ships, s.ship_id = e.ship_id →
      s.status = "Available" ∧ s.cargo = 0) := by
  refine ⟨?_, ?_, ?_, ?_⟩
  · simp [handle_arrival, hs, hp]
  · simp [handle_arrival, hs, hp]
  · simp [handle_arrival, hs, hp]
  · intro s hmem hid
    simp only [handle_arrival, hs, hp, update_ship, List.mem_map] at hmem
    obtain ⟨t, ht, rfl⟩ := hmem
    by_cases hc : t.ship_id = e.ship_id
    · simp [hc]
    · rw [if_neg hc] at hid
      exact absurd hid hc

/-- C3, counterexample to the claim as stated: an arrival event for ship
"S1" whose current status is "Available" (not "In Transit") is NOT a
no-op: the per-ship cargo_delivered statistic changes from 0 to 40, so the
ship's state and the statistics are not left unchanged. -/
theorem handle_arrival_not_in_transit_not_skipped :
    get_ship rsQ.ships evArrQ.ship_id = some shipQ ∧
    shipQ.status = "Available" ∧
    (rsQ.ship_stats "S1").cargo_delivered = 0 ∧
    ((handle_arrival rsQ evArrQ).ship_stats "S1").cargo_delivered = 40 := by
  have h1 : get_ship rsQ.ships evArrQ.ship_id = some shipQ := rfl
  have h2 : get_port rsQ.ports evArrQ.port_id = some portQB := rfl
  refine ⟨h1, rfl, rfl, ?_⟩
  simp only [handle_arrival, h1, h2]
  simp [evArrQ, rsQ]

/-- C3 witness: the amended theorem applied at the Available ship. -/
theorem handle_arrival_ignores_status_witness :
    shipQ.status ≠ "In Transit" ∧
    ((handle_arrival rsQ evArrQ).ship_stats "S1").cargo_delivered =
      (rsQ.ship_stats "S1").cargo_delivered + 40 :=
  ⟨by decide,
   (handle_arrival_ignores_predecessor_status rsQ evArrQ shipQ portQB rfl rfl
     (by decide)).1⟩

/-- C6 (amended): an ARRIVAL event whose ship id or port id is absent from
the registries is skipped with no state change and no statistics update; a
DEPARTURE event whose ship id is absent is likewise skipped; but a
DEPARTURE event consults only the ship registry — its port id is never
looked up, so a departure with an unknown port id and a known ship id is
processed normally (ship set In Transit, log appended), not skipped. -/
theorem replay_missing_id_skip_rules :
    (∀ (rs : RunState ℚ) (e : SimulationEvent ℚ),
      get_ship rs.ships e.ship_id = none → handle_departure rs e = rs) ∧
    (∀ (rs : RunState ℚ) (e : SimulationEvent ℚ),
      get_ship rs.ships e.ship_id = none → handle_arrival rs e = rs) ∧
    (∀ (rs : RunState ℚ) (e : SimulationEvent ℚ),
      get_port rs.ports e.port_id = none → handle_arrival rs e = rs) ∧
    (∀ (rs : RunState ℚ) (e : SimulationEvent ℚ) (ship : Ship ℚ),
      get_ship rs.ships e.ship_id = some ship →
      (handle_departure rs e).log = rs.log ++
        [⟨e.timestamp, "DEPARTURE", e.ship_id, e.port_id,
          e.details.cargo_volume, 0⟩] ∧
      (∀ s ∈ (handle_departure rs e).ships, s.ship_id = e.ship_id →
        s.status = "In Transit" ∧ s.cargo = e.details.cargo_volume)) := by
  refine ⟨?_, ?_, ?_, ?_⟩
  · intro rs e h
    simp [handle_departure, h]
  · intro rs e h
    rcases hp : get_port rs.ports e.port_id with _ | p <;>
      simp [handle_arrival, h, hp]
  · intro rs e h
    rcases hs : get_ship rs.ships e.ship_id with _ | s <;>
      simp [handle_arrival, h, hs]
  · intro rs e ship h
    constructor
    · simp [handle_departure, h]
    · intro s hmem hid
      simp only [handle_departure, h, update_ship, List.mem_map] at hmem
      obtain ⟨t, ht, rfl⟩ := hmem
      by_cases hc : t.ship_id = e.ship_id
      · simp [hc]
      · rw [if_neg hc] at hid
        exact absurd hid hc

/-- C6, counterexample to the claim as stated: a DEPARTURE event whose
port id "NOWHERE" is absent from the port registry (but whose ship id is
registered) is NOT skipped: the log grows and the ship is moved to
"In Transit", so the event does cause a state change. -/
theorem handle_departure_unknown_port_processed :
    get_port rsQ.ports evDepNoPortQ.port_id = none ∧
    get_ship rsQ.ships evDepNoPortQ.ship_id = some shipQ ∧
    rsQ.log.length = 0 ∧
    (handle_departure rsQ evDepNoPortQ).log.length = 1 ∧
    (∀ s ∈ (handle_departure rsQ evDepNoPortQ).ships,
      s.status = "In Transit") := by
  decide

/-- C6 witness: the amended theorem applied at an event with an
unregistered ship id, which is skipped with the state unchanged. -/
theorem replay_missing_id_skip_witness :
    get_ship rsQ.ships evGhostQ.ship_id = none ∧
    handle_departure rsQ evGhostQ = rsQ ∧
    handle_arrival rsQ evGhostQ = rsQ :=
  ⟨rfl,
   replay_missing_id_skip_rules.1 rsQ evGhostQ rfl,
   replay_missing_id_skip_rules.2.1 rsQ evGhostQ rfl⟩

/-
  C4 — replay boundary and halt, C9 — monotone simulated time.
-/

/-- Sorted test events around the end time 2. -/
def evT1 : SimulationEvent ℚ := ⟨1, "DEPARTURE", "S1", "PA", ⟨40, "PB", 0⟩⟩

/-- An event whose timestamp equals the end time 2. -/
def evT2 : SimulationEvent ℚ := ⟨2, "ARRIVAL", "S1", "PB", ⟨40, "", 111⟩⟩

/-- An event whose timestamp strictly exceeds the end time 2. -/
def evT3 : SimulationEvent ℚ := ⟨3, "DEPARTURE", "S1", "PB", ⟨0, "PA", 0⟩⟩

/-- Every event the replay loop visits has timestamp at most the end
time. -/
lemma visited_events_le {K : Type} [LinearOrderedField K] (end_time : K)
    (events : List (SimulationEvent K)) :
    ∀ e ∈ visited_events end_time events, e.timestamp ≤ end_time := by
  induction events with
  | nil => intro e he; cases he
  | cons a rest ih =>
    intro e he
    unfold visited_events at he
    by_cases h : end_time < a.timestamp
    · rw [if_pos h] at he; cases he
    · rw [if_neg h] at he
      rcases List.mem_cons.mp he with rfl | he'
      · exact not_lt.mp h
      · exact ih e he'

/-- The visited events form a sublist of the pending list. -/
lemma visited_events_sublist {K : Type} [LinearOrderedField K] (end_time : K)
    (events : List (SimulationEvent K)) :
    (visited_events end_time events).Sublist events := by
  induction events with
  | nil => exact List.Sublist.refl _
  | cons a rest ih =>
    unfold visited_events
    by_cases h : end_time < a.timestamp
    · rw [if_pos h]; exact List.nil_sublist _
    · rw [if_neg h]; exact List.Sublist.cons₂ a ih

/-- On a sorted pending list, every event whose timestamp is at most the
end time (in particular exactly equal to it) is visited. -/
lemma mem_visited_of_sorted {K : Type} [LinearOrderedField K] (end_time : K)
    (events : List (SimulationEvent K)) (e : SimulationEvent K)
    (hs : List.Sorted (fun a b : SimulationEvent K =>
      a.timestamp ≤ b.timestamp) events)
    (he : e ∈ events) (hts : e.timestamp ≤ end_time) :
    e ∈ visited_events end_time events := by
  induction events with
  | nil => cases he
  | cons a rest ih =>
    rw [List.sorted_cons] at hs
    rcases List.mem_cons.mp he with rfl | hmem
    · unfold visited_events
      rw [if_neg (not_lt.mpr hts)]
      exact List.mem_cons_self _ _
    · have hale : a.timestamp ≤ e.timestamp := hs.1 e hmem
      unfold visited_events
      rw [if_neg (not_lt.mpr (le_trans hale hts))]
      exact List.mem_cons_of_mem _ (ih hs.2 hmem)

/-- Once any event strictly past the end time is reached, nothing at or
after it is visited: every visited event lies in the part of the list
before that event. -/
lemma visited_events_before_exceeding {K : Type} [LinearOrderedField K]
    (end_time : K) (l1 l2 : List (SimulationEvent K)) (x : SimulationEvent K)
    (hx : end_time < x.timestamp) :
    ∀ e ∈ visited_events end_time (l1 ++ x :: l2), e ∈ l1 := by
  induction l1 with
  | nil =>
    intro e he
    rw [List.nil_append] at he
    unfold visited_events at he
    rw [if_pos hx] at he
    cases he
  | cons a t ih =>
    intro e he
    rw [List.cons_append] at he
    unfold visited_events at he
    by_cases h : end_time < a.timestamp
    · rw [if_pos h] at he; cases he
    · rw [if_neg h] at he
      rcases List.mem_cons.mp he with rfl | he'
      · exact List.mem_cons_self _ _
      · exact List.mem_cons_of_mem _ (ih e he')

/-- The replay loop equals the fold of the loop body over exactly the
visited events, in their list order. -/
lemma run_loop_eq_foldl {K : Type} [LinearOrderedField K] (end_time : K)
    (events : List (SimulationEvent K)) :
    ∀ rs : RunState K, run_loop end_time rs events =
      (visited_events end_time events).foldl process_event rs := by
  induction events with
  | nil => intro rs; rfl
  | cons e rest ih =>
    intro rs
    unfold run_loop visited_events
    by_cases h : end_time < e.timestamp
    · rw [if_pos h, if_pos h]; rfl
    · rw [if_neg h, if_neg h, List.foldl_cons]
      exact ih _

/-- The loop body always advances the simulated-time cursor to the
visited event's timestamp (no handler changes it afterwards). -/
lemma process_event_current_time {K : Type} [LinearOrderedField K]
    (rs : RunState K) (e : SimulationEvent K) :
    (process_event rs e).current_time = e.timestamp := by
  by_cases h1 : e.event_type = "DEPARTURE"
  · simp only [process_event, if_pos h1, handle_departure]
    rcases hs : get_ship rs.ships e.ship_id with _ | s <;> simp [hs]
  · by_cases h2 : e.event_type = "ARRIVAL"
    · simp only [process_event, if_neg h1, if_pos h2, handle_arrival]
      rcases hs : get_ship rs.ships e.ship_id with _ | s <;>
        rcases hp : get_port rs.ports e.port_id with _ | p <;> simp [hs, hp]
    · simp [process_event, if_neg h1, if_neg h2]

/-- C4: on the (once-)sorted pending list, replay visits events in list
order and halts at the first event whose timestamp strictly exceeds the
end time: an event with timestamp exactly equal to the end time is
visited, no visited event has timestamp above the end time, no event at
or after the first exceeding event is visited, and the replay loop is
exactly the in-order fold of the loop body over the visited events. -/
theorem run_loop_boundary_halt (end_time : ℚ)
    (events : List (SimulationEvent ℚ))
    (hsorted : List.Sorted (fun a b : SimulationEvent ℚ =>
      a.timestamp ≤ b.timestamp) events) :
    (∀ e ∈ events, e.timestamp = end_time →
      e ∈ visited_events end_time events) ∧
    (∀ e ∈ visited_events end_time events, e.timestamp ≤ end_time) ∧
    (∀ l1 x l2, events = l1 ++ x :: l2 → end_time < x.timestamp →
      ∀ e ∈ visited_events end_time events, e ∈ l1) ∧
    (∀ rs : RunState ℚ, run_loop end_time rs events =
      (visited_events end_time events).foldl process_event rs) := by
  refine ⟨?_, visited_events_le end_time events, ?_, run_loop_eq_foldl end_time events⟩
  · intro e he hts
    exact mem_visited_of_sorted end_time events e hsorted he (le_of_eq hts)
  · intro l1 x l2 hdec hx
    rw [hdec]
    exact visited_events_before_exceeding end_time l1 l2 x hx

/-- C4 witness: with sorted events at timestamps 1, 2, 3 and end time 2,
the event at exactly 2 is visited, the one at 3 is not, and replay visits
exactly the prefix before it. -/
theorem run_loop_boundary_halt_witness :
    List.Sorted (fun a b : SimulationEvent ℚ => a.timestamp ≤ b.timestamp)
      [evT1, evT2, evT3] ∧
    evT2 ∈ visited_events (2 : ℚ) [evT1, evT2, evT3] ∧
    visited_events (2 : ℚ) [evT1, evT2, evT3] = [evT1, evT2] :=
  ⟨by decide,
   (run_loop_boundary_halt 2 [evT1, evT2, evT3] (by decide)).1 evT2
     (by decide) rfl,
   by decide⟩

/-- C9: the loop body sets the simulated-time cursor to each visited
event's timestamp, and on the sorted pending list this sequence of cursor
values is non-decreasing. -/
theorem cursor_trace_monotone (end_time : ℚ)
    (events : List (SimulationEvent ℚ))
    (hsorted : List.Sorted (fun a b : SimulationEvent ℚ =>
      a.timestamp ≤ b.timestamp) events) :
    (∀ (rs : RunState ℚ) (e : SimulationEvent ℚ),
      (process_event rs e).current_time = e.timestamp) ∧
    List.Pairwise (· ≤ ·) (cursor_trace end_time events) := by
  constructor
  · exact fun rs e => process_event_current_time rs e
  · have hsub := visited_events_sublist end_time events
    have hp := List.Pairwise.sublist hsub hsorted
    unfold cursor_trace
    exact List.pairwise_map.mpr hp

/-- C9 witness: the cursor values over the visited events of the sorted
test list are 1 then 2, a non-decreasing sequence. -/
theorem cursor_trace_monotone_witness :
    List.Sorted (fun a b : SimulationEvent ℚ => a.timestamp ≤ b.timestamp)
      [evT1, evT2, evT3] ∧
    cursor_trace (2 : ℚ) [evT1, evT2, evT3] = [1, 2] ∧
    List.Pairwise (· ≤ ·) (cursor_trace (2 : ℚ) [evT1, evT2, evT3]) :=
  ⟨by decide, by decide,
   (cursor_trace_monotone 2 [evT1, evT2, evT3] (by decide)).2⟩

/-
  C7 — cargo conservation, C8 — fuel-efficiency guard.
-/

/-- A consistent simulator state: one ship, two ports, a matching
departure/arrival event pair, end time 100. -/
def stQ : SimState ℚ := ⟨[shipQ], [portQA, portQB], [evT1, evT2], 0, 100, 0⟩

/-- A ship-registry mutation that only rewrites status/cargo keeps the
dict keys (the ship ids) unchanged. -/
lemma update_ship_map_id {K : Type} (ships : List (Ship K)) (sid : String)
    (f : Ship K → Ship K) (hf : ∀ s, (f s).ship_id = s.ship_id) :
    (update_ship ships sid f).map (fun s => s.ship_id) =
      ships.map (fun s => s.ship_id) := by
  unfold update_ship
  rw [List.map_map]
  apply List.map_congr_left
  intro s _
  by_cases h : s.ship_id = sid
  · simp [h, hf]
  · simp [h]

/-- A successful ship lookup returns the entry with that id, and the id is
a key of the registry. -/
lemma get_ship_some_facts {K : Type} (ships : List (Ship K)) (sid : String)
    (s : Ship K) (h : get_ship ships sid = some s) :
    s.ship_id = sid ∧ sid ∈ ships.map (fun t => t.ship_id) := by
  unfold get_ship at h
  have h1 := List.find?_some h
  have h2 := List.mem_of_find?_eq_some h
  have h3 : s.ship_id = sid := by simpa using h1
  exact ⟨h3, List.mem_map.mpr ⟨s, h2, h3⟩⟩

/-- A successful port lookup returns the entry with that id, and the id is
a key of the registry. -/
lemma get_port_some_facts {K : Type} (ports : List (Port K)) (pid : String)
    (p : Port K) (h : get_port ports pid = some p) :
    p.port_id = pid ∧ pid ∈ ports.map (fun q => q.port_id) := by
  unfold get_port at h
  have h1 := List.find?_some h
  have h2 := List.mem_of_find?_eq_some h
  have h3 : p.port_id = pid := by simpa using h1
  exact ⟨h3, List.mem_map.mpr ⟨p, h2, h3⟩⟩

/-- Updating the per-port statistics dict at one registered key adds
exactly that key's cargo increment to the summed total (dict keys are
unique). -/
lemma total_port_cargo_if_update (f g : String → PortStat ℚ) (k : String)
    (d : ℚ) (hk : (g k).cargo_handled = (f k).cargo_handled + d)
    (hother : ∀ j, j ≠ k → g j = f j) :
    ∀ ports : List (Port ℚ), (ports.map (fun p => p.port_id)).Nodup →
      k ∈ ports.map (fun p => p.port_id) →
      total_port_cargo ports g = total_port_cargo ports f + d := by
  intro ports
  induction ports with
  | nil =>
    intro _ hmem
    simp at hmem
  | cons q t ih =>
    intro hnd hmem
    rw [List.map_cons, List.nodup_cons] at hnd
    unfold total_port_cargo
    simp only [List.map_cons, List.sum_cons]
    rcases List.mem_cons.mp hmem with hq | hmem'
    · have hqid : k = q.port_id := hq
      have ht : t.map (fun p => (g p.port_id).cargo_handled) =
          t.map (fun p => (f p.port_id).cargo_handled) := by
        apply List.map_congr_left
        intro p hp
        have hpk : p.port_id ≠ k := by
          intro hcon
          exact hnd.1 (List.mem_map.mpr ⟨p, hp, hcon.trans hqid⟩)
        rw [hother p.port_id hpk]
      rw [ht, ← hqid, hk]
      ring
    · have hqk : q.port_id ≠ k := fun h => hnd.1 (h ▸ hmem')
      rw [hother q.port_id hqk]
      have := ih hnd.2 hmem'
      unfold total_port_cargo at this
      rw [this]
      ring

/-- Updating the per-ship statistics dict at one registered key adds
exactly that key's delivered-cargo increment to the summed total. -/
lemma total_ship_delivered_if_update (f g : String → ShipStat ℚ) (k : String)
    (d : ℚ) (hk : (g k).cargo_delivered = (f k).cargo_delivered + d)
    (hother : ∀ j, j ≠ k → g j = f j) :
    ∀ ships : List (Ship ℚ), (ships.map (fun s => s.ship_id)).Nodup →
      k ∈ ships.map (fun s => s.ship_id) →
      total_ship_delivered ships g = total_ship_delivered ships f + d := by
  intro ships
  induction ships with
  | nil =>
    intro _ hmem
    simp at hmem
  | cons q t ih =>
    intro hnd hmem
    rw [List.map_cons, List.nodup_cons] at hnd
    unfold total_ship_delivered
    simp only [List.map_cons, List.sum_cons]
    rcases List.mem_cons.mp hmem with hq | hmem'
    · have hqid : k = q.ship_id := hq
      have ht : t.map (fun s => (g s.ship_id).cargo_delivered) =
          t.map (fun s => (f s.ship_id).cargo_delivered) := by
        apply List.map_congr_left
        intro s hs
        have hsk : s.ship_id ≠ k := by
          intro hcon
          exact hnd.1 (List.mem_map.mpr ⟨s, hs, hcon.trans hqid⟩)
        rw [hother s.ship_id hsk]
      rw [ht, ← hqid, hk]
      ring
    · have hqk : q.ship_id ≠ k := fun h => hnd.1 (h ▸ hmem')
      rw [hother q.ship_id hqk]
      have := ih hnd.2 hmem'
      unfold total_ship_delivered at this
      rw [this]
      ring

/-- One loop-body step preserves the port registry, the ship-registry
keys, and the equality of summed port cargo and summed ship cargo: an
arrival found in both registries adds the same cargo volume to both
totals, and every other case changes neither. -/
lemma process_event_conservation (ports : List (Port ℚ))
    (ships0 : List (Ship ℚ))
    (hndp : (ports.map (fun p => p.port_id)).Nodup)
    (hnds : (ships0.map (fun s => s.ship_id)).Nodup)
    (rs : RunState ℚ) (e : SimulationEvent ℚ)
    (hports : rs.ports = ports)
    (hships : rs.ships.map (fun s => s.ship_id) =
      ships0.map (fun s => s.ship_id))
    (hsum : total_port_cargo ports rs.port_stats =
      total_ship_delivered ships0 rs.ship_stats) :
    (process_event rs e).ports = ports ∧
    (process_event rs e).ships.map (fun s => s.ship_id) =
      ships0.map (fun s => s.ship_id) ∧
    total_port_cargo ports (process_event rs e).port_stats =
      total_ship_delivered ships0 (process_event rs e).ship_stats := by
  by_cases h1 : e.event_type = "DEPARTURE"
  · simp only [process_event, if_pos h1, handle_departure]
    rcases hs : get_ship rs.ships e.ship_id with _ | s
    · simp only [hs]
      exact ⟨hports, hships, hsum⟩
    · simp only [hs]
      refine ⟨hports, ?_, hsum⟩
      have hupd := update_ship_map_id rs.ships e.ship_id
        (fun s => { s with status := "In Transit",
                           cargo := e.details.cargo_volume })
        (fun t => rfl)
      rw [hupd]
      exact hships
  · by_cases h2 : e.event_type = "ARRIVAL"
    · simp only [process_event, if_neg h1, if_pos h2, handle_arrival]
      rcases hs : get_ship rs.ships e.ship_id with _ | s
      · rcases hp : get_port rs.ports e.port_id with _ | p <;>
          simp only [hs, hp] <;> exact ⟨hports, hships, hsum⟩
      · rcases hp : get_port rs.ports e.port_id with _ | p
        · simp only [hs, hp]
          exact ⟨hports, hships, hsum⟩
        · simp only [hs, hp]
          obtain ⟨hsid, hsmem⟩ := get_ship_some_facts rs.ships e.ship_id s hs
          obtain ⟨hpid, hpmem⟩ := get_port_some_facts rs.ports e.port_id p hp
          refine ⟨hports, ?_, ?_⟩
          · have hupd := update_ship_map_id rs.ships e.ship_id
              (fun s => { s with status := "Available", cargo := 0 })
              (fun t => rfl)
            rw [hupd]
            exact hships
          · have hport := total_port_cargo_if_update rs.port_stats
              (fun j => if j = e.port_id then
                ⟨(rs.port_stats j).ships_handled + 1,
                 (rs.port_stats j).cargo_handled + e.details.cargo_volume⟩
                else rs.port_stats j)
              e.port_id e.details.cargo_volume (by simp)
              (fun j hj => by simp [if_neg hj]) ports hndp
              (hports ▸ hpmem)
            have hship := total_ship_delivered_if_update rs.ship_stats
              (fun j => if j = e.ship_id then
                ⟨(rs.ship_stats j).total_distance + e.details.travel_distance,
                 (rs.ship_stats j).fuel_consumed +
                   e.details.travel_distance / s.speed * s.fuel_consumption,
                 (rs.ship_stats j).cargo_delivered + e.details.cargo_volume⟩
                else rs.ship_stats j)
              e.ship_id e.details.cargo_volume (by simp)
              (fun j hj => by simp [if_neg hj]) ships0 hnds
              (hships ▸ hsmem)
            rw [hport, hship, hsum]
    · simp only [process_event, if_neg h1, if_neg h2]
      exact ⟨hports, hships, hsum⟩

/-- The replay loop preserves the equality of summed port cargo and summed
ship cargo from any starting state whose registries have unique keys. -/
lemma run_loop_conservation (end_time : ℚ) (ports : List (Port ℚ))
    (ships0 : List (Ship ℚ))
    (hndp : (ports.map (fun p => p.port_id)).Nodup)
    (hnds : (ships0.map (fun s => s.ship_id)).Nodup) :
    ∀ (events : List (SimulationEvent ℚ)) (rs : RunState ℚ),
      rs.ports = ports →
      rs.ships.map (fun s => s.ship_id) = ships0.map (fun s => s.ship_id) →
      total_port_cargo ports rs.port_stats =
        total_ship_delivered ships0 rs.ship_stats →
      total_port_cargo ports (run_loop end_time rs events).port_stats =
        total_ship_delivered ships0 (run_loop end_time rs events).ship_stats := by
  intro events
  induction events with
  | nil => intro rs _ _ h3; exact h3
  | cons e rest ih =>
    intro rs h1 h2 h3
    unfold run_loop
    by_cases h : end_time < e.timestamp
    · rw [if_pos h]; exact h3
    · rw [if_neg h]
      obtain ⟨p1, p2, p3⟩ :=
        process_event_conservation ports ships0 hndp hnds rs e h1 h2 h3
      exact ih (process_event rs e) p1 p2 p3

/-- C7: at the end of any run over registries with unique ids (a dict
invariant) in which no event references a missing ship or port, the sum of
cargo_handled over the per-port statistics equals the sum of
cargo_delivered over the per-ship statistics — and that common value is
the summary's total_cargo_handled. -/
theorem run_simulation_cargo_conservation (st : SimState ℚ)
    (hndp : (st.ports.map (fun p => p.port_id)).Nodup)
    (hnds : (st.ships.map (fun s => s.ship_id)).Nodup)
    (_hcons : ∀ e ∈ st.events,
      (∃ s ∈ st.ships, s.ship_id = e.ship_id) ∧
      (∃ p ∈ st.ports, p.port_id = e.port_id)) :
    total_port_cargo st.ports (run_simulation st).1.port_stats =
      total_ship_delivered st.ships (run_simulation st).1.ship_stats ∧
    (run_simulation st).2.total_cargo_handled =
      total_ship_delivered st.ships (run_simulation st).1.ship_stats := by
  have hinit_p : total_port_cargo st.ports
      (fun _ => (⟨0, 0⟩ : PortStat ℚ)) = 0 := by
    simp [total_port_cargo]
  have hinit_s : total_ship_delivered st.ships
      (fun _ => (⟨0, 0, 0⟩ : ShipStat ℚ)) = 0 := by
    simp [total_ship_delivered]
  have hmain := run_loop_conservation st.end_time st.ports st.ships hndp hnds
    (st.events.insertionSort (fun a b => a.timestamp ≤ b.timestamp))
    ⟨st.ships, st.ports, st.current_time,
     fun _ => ⟨0, 0⟩, fun _ => ⟨0, 0, 0⟩, []⟩
    rfl rfl (by rw [hinit_p, hinit_s])
  exact ⟨hmain, hmain⟩

/-- C7 witness: the theorem applied to the consistent one-ship two-port
state with a matching departure/arrival pair. -/
theorem run_simulation_cargo_conservation_witness :
    (stQ.ports.map (fun p => p.port_id)).Nodup ∧
    (stQ.ships.map (fun s => s.ship_id)).Nodup ∧
    (∀ e ∈ stQ.events,
      (∃ s ∈ stQ.ships, s.ship_id = e.ship_id) ∧
      (∃ p ∈ stQ.ports, p.port_id = e.port_id)) ∧
    total_port_cargo stQ.ports (run_simulation stQ).1.port_stats =
      total_ship_delivered stQ.ships (run_simulation stQ).1.ship_stats :=
  ⟨by decide, by decide, by decide,
   (run_simulation_cargo_conservation stQ (by decide) (by decide)
     (by decide)).1⟩

/-- C8: the summary's average fuel efficiency is total cargo handled
divided by total fuel consumed when the latter is positive, and exactly 0
when the total fuel consumed is 0 (the code's guard; no division is
attempted then, so there is no division-by-zero error and no NaN). -/
theorem generate_summary_fuel_guard (ports : List (Port ℚ))
    (ships : List (Ship ℚ)) (start_time end_time : ℚ)
    (pstats : String → PortStat ℚ) (sstats : String → ShipStat ℚ) :
    (total_ship_fuel ships sstats = 0 →
      (generate_summary ports ships start_time end_time pstats
        sstats).average_fuel_efficiency = 0) ∧
    (0 < total_ship_fuel ships sstats →
      (generate_summary ports ships start_time end_time pstats
        sstats).average_fuel_efficiency =
        total_port_cargo ports pstats / total_ship_fuel ships sstats) := by
  constructor
  · intro h
    simp [generate_summary, h]
  · intro h
    simp [generate_summary, if_pos h]

/-- C8 witness: a run with no ships at all consumes total fuel 0 and the
reported average fuel efficiency is exactly 0. -/
theorem generate_summary_fuel_guard_witness :
    total_ship_fuel ([] : List (Ship ℚ)) (fun _ => ⟨0, 0, 0⟩) = 0 ∧
    (generate_summary [portQA] ([] : List (Ship ℚ)) 0 48 (fun _ => ⟨0, 0⟩)
      (fun _ => ⟨0, 0, 0⟩)).average_fuel_efficiency = 0 :=
  ⟨rfl,
   (generate_summary_fuel_guard [portQA] [] 0 48 (fun _ => ⟨0, 0⟩)
     (fun _ => ⟨0, 0, 0⟩)).1 rfl⟩
